import Mathlib

/-!
Verification development for the model-construction module `hw2/cnn.py`.

The module builds convolutional classifier architectures as ordered lists of
layer objects wrapped in sequential containers.  We embed the construction
logic shallowly: every layer object becomes a constructor of an inductive
type carrying exactly the hyperparameters the Python code passes to the
framework, dictionaries of optional parameters become records of `Option`
fields (a key is present or absent), and code that can raise becomes a
function into `Except`.

Conventions of the embedding:
* Spatial sizes are tracked in `ℤ`.  Python computes
  `int(((h + 2*p) - d*(k-1) - 1)/s) + 1`; on integers this is division
  truncated toward zero, i.e. `Int.tdiv`.
* `activation_params` dictionaries are modelled by the only key the module
  ever reads, `negative_slope`, as an `Option ℚ`; an absent key is `none`
  and an empty dictionary (falsy in Python) is also `none`.
* Framework layer constructors (`nn.Conv2d`, `nn.Linear`, ...) are treated
  as pure record builders; their own internal validation is outside this
  module and is not modelled.
-/

/-- Errors the construction code in `cnn.py` can raise. -/
inductive BuildError
  | assertionError
  | valueError
  | keyErrorKernelSize
  | keyErrorNegativeSlope
  | zeroDivisionError
  | indexError
deriving DecidableEq

/-- A framework layer object together with the hyperparameters the module
passes when constructing it. -/
inductive BasicLayer
  | conv2d (inC outC kernel stride padding dilation : ℕ) (bias : Bool)
  | relu
  | lrelu (slope : Option ℚ)
  | maxPool (kernel stride padding dilation : ℕ)
  | avgPool (kernel stride padding : ℕ)
  | dropout2d (p : ℚ)
  | dropout (p : ℚ)
  | batchNorm2d (c : ℕ)
  | linear (inF outF : ℤ)
deriving DecidableEq

/-- A layer of a feature extractor that may also be a whole `ResidualBlock`
module (as appended by `ResNetClassifier` and `YourCodeNet`). -/
inductive Layer
  | basic (l : BasicLayer)
  | residual (main shortcut : List BasicLayer)
deriving DecidableEq

/-- `nn.Sequential(*layers)`: an ordered container of layer objects. -/
structure PySeq (α : Type) where
  layers : List α
deriving DecidableEq

/-- A `conv_params` / `pooling_params` dictionary: each supported key is
present (`some`) or absent (`none`). -/
structure PDict where
  kernel_size : Option ℕ
  stride : Option ℕ
  padding : Option ℕ
  dilation : Option ℕ
deriving DecidableEq

/-- The arguments of `ConvClassifier.__init__` (`in_size` unpacked as
`(C, H, W)`). -/
structure ConvConfig where
  in_channels : ℕ
  in_h : ℤ
  in_w : ℤ
  out_classes : ℕ
  channels : List ℕ
  pool_every : ℕ
  hidden_dims : List ℕ
  conv_params : PDict
  activation_type : String
  act_negative_slope : Option ℚ
  pooling_type : String
  pooling_params : PDict
deriving DecidableEq

/-- The state of `ConvClassifier` after `__init__` finished. -/
structure ConvModel where
  feature_extractor : PySeq BasicLayer
  classifier : PySeq BasicLayer
  features_num : ℤ
deriving DecidableEq

/-- The output-size update the module performs after appending a
convolution or pooling layer (`cnn.py` lines 104-105 and 119-120):
`int(((size + 2*padding) - dilation*(kernel-1) - 1)/stride) + 1`.
Python `int()` on a true-division quotient truncates toward zero, which is
`Int.tdiv` on integers. -/
def pySizeUpd (size : ℤ) (kernel stride padding dilation : ℕ) : ℤ :=
  Int.tdiv (size + 2 * (padding : ℤ) - (dilation : ℤ) * ((kernel : ℤ) - 1) - 1) (stride : ℤ) + 1

/-- The same update with mathematical floor division, as the specification
phrases it ("floor((size + 2*padding - dilation*(kernel - 1) - 1) / stride) + 1"). -/
def floorSizeUpd (size : ℤ) (kernel stride padding dilation : ℕ) : ℤ :=
  Int.fdiv (size + 2 * (padding : ℤ) - (dilation : ℤ) * ((kernel : ℤ) - 1) - 1) (stride : ℤ) + 1

/-- The convolution and pooling parameters of
`ConvClassifier._make_feature_extractor` after the defaulting reads on
lines 86-95 of `cnn.py`. -/
structure FEParams where
  ck : ℕ
  cs : ℕ
  cp : ℕ
  cd : ℕ
  pk : ℕ
  ps : ℕ
  pp : ℕ
  pd : ℕ
  P : ℕ
  actType : String
  slope : Option ℚ
  poolType : String
deriving DecidableEq

/-- Lines 86-95: read `kernel_size` from both dictionaries (raising
`KeyError` when absent) and default `stride`/`padding`/`dilation`; the
pooling stride defaults to the pooling kernel size. -/
def resolveFEParams (cfg : ConvConfig) : Except BuildError FEParams :=
  match cfg.conv_params.kernel_size with
  | none => .error .keyErrorKernelSize
  | some ck =>
    match cfg.pooling_params.kernel_size with
    | none => .error .keyErrorKernelSize
    | some pk =>
      .ok { ck := ck
            cs := cfg.conv_params.stride.getD 1
            cp := cfg.conv_params.padding.getD 0
            cd := cfg.conv_params.dilation.getD 1
            pk := pk
            ps := cfg.pooling_params.stride.getD pk
            pp := cfg.pooling_params.padding.getD 0
            pd := cfg.pooling_params.dilation.getD 1
            P := cfg.pool_every
            actType := cfg.activation_type
            slope := cfg.act_negative_slope
            poolType := cfg.pooling_type }

/-- Lines 107-110: the activation appended after each convolution of the
feature extractor.  For `lrelu` the code reads
`activation_params["negative_slope"]` unconditionally, raising `KeyError`
when the key is absent; for any other unknown string nothing is appended
(unreachable after the `__init__` validation). -/
def actLayersE (actType : String) (slope : Option ℚ) : Except BuildError (List BasicLayer) :=
  if actType = "relu" then .ok [.relu]
  else if actType = "lrelu" then
    match slope with
    | some v => .ok [.lrelu (some v)]
    | none => .error .keyErrorNegativeSlope
  else .ok []

/-- Lines 113-117: the pooling layer appended after every `pool_every`-th
convolution.  `MaxPool2d` receives a dilation argument, `AvgPool2d` does
not. -/
def poolLayers (poolType : String) (pk ps pp pd : ℕ) : List BasicLayer :=
  if poolType = "max" then [.maxPool pk ps pp pd]
  else if poolType = "avg" then [.avgPool pk ps pp]
  else []

/-- The loop of `ConvClassifier._make_feature_extractor` (lines 98-121),
iterating over consecutive channel pairs with the 1-based index `idx`.
Errors carry the list of layers appended before the raise. -/
def feLoop (q : FEParams) :
    List ℕ → ℕ → ℕ → ℤ → ℤ →
    Except (BuildError × List BasicLayer) (List BasicLayer × ℤ × ℤ)
  | [], _, _, h, w => .ok ([], h, w)
  | cout :: rest, cin, idx, h, w =>
    let conv : BasicLayer := .conv2d cin cout q.ck q.cs q.cp q.cd true
    if q.cs = 0 then .error (.zeroDivisionError, [conv])
    else
      let h1 := pySizeUpd h q.ck q.cs q.cp q.cd
      let w1 := pySizeUpd w q.ck q.cs q.cp q.cd
      match actLayersE q.actType q.slope with
      | .error e => .error (e, [conv])
      | .ok acts =>
        if q.P = 0 then .error (.zeroDivisionError, conv :: acts)
        else if idx % q.P = 0 then
          let pls := poolLayers q.poolType q.pk q.ps q.pp q.pd
          if q.ps = 0 then .error (.zeroDivisionError, conv :: acts ++ pls)
          else
            let h2 := pySizeUpd h1 q.pk q.ps q.pp q.pd
            let w2 := pySizeUpd w1 q.pk q.ps q.pp q.pd
            match feLoop q rest cout (idx + 1) h2 w2 with
            | .error (e, tr) => .error (e, conv :: acts ++ pls ++ tr)
            | .ok (ls, h3, w3) => .ok (conv :: acts ++ pls ++ ls, h3, w3)
        else
          match feLoop q rest cout (idx + 1) h1 w1 with
          | .error (e, tr) => .error (e, conv :: acts ++ tr)
          | .ok (ls, h3, w3) => .ok (conv :: acts ++ ls, h3, w3)

/-- `ConvClassifier._make_feature_extractor` (lines 67-126): resolve the
parameter dictionaries, run the layer loop, and compute
`features_num = channels[-1] * in_h * in_w`.  On error the second
component is the list of layers appended before the raise. -/
def makeFeatureExtractor (cfg : ConvConfig) :
    Except (BuildError × List BasicLayer) (List BasicLayer × ℤ × ℤ × ℤ) :=
  match resolveFEParams cfg with
  | .error e => .error (e, [])
  | .ok q =>
    match feLoop q cfg.channels cfg.in_channels 1 cfg.in_h cfg.in_w with
    | .error et => .error et
    | .ok (ls, h, w) =>
      match cfg.channels.getLast? with
      | none => .error (.indexError, ls)
      | some clast => .ok (ls, h, w, (clast : ℤ) * h * w)

/-- `ConvClassifier._n_features` (lines 128-140): returns the
`features_num` computed during feature-extractor construction. -/
def nFeatures (m : ConvModel) : ℤ :=
  m.features_num

/-- Lines 155-161 (and the identical conditional in `ResidualBlock`,
lines 252-258): the activation appended after a hidden linear layer.  The
dictionary is consulted only when truthy, so an empty `activation_params`
yields the default `LeakyReLU()`. -/
def classAct (actType : String) (slope : Option ℚ) : List BasicLayer :=
  if actType = "relu" then [.relu]
  else if actType = "lrelu" then
    match slope with
    | some v => [.lrelu (some v)]
    | none => [.lrelu none]
  else []

/-- The loop of `ConvClassifier._make_classifier` (lines 152-163):
`Linear -> ACT` per hidden dimension, then a final
`Linear(input_dimension, out_classes)`. -/
def classifierLoop (actType : String) (slope : Option ℚ) (outClasses : ℕ) :
    List ℕ → ℤ → List BasicLayer
  | [], inDim => [.linear inDim (outClasses : ℤ)]
  | hd :: rest, inDim =>
    .linear inDim (hd : ℤ) ::
      (classAct actType slope ++ classifierLoop actType slope outClasses rest (hd : ℤ))

/-- `ConvClassifier.__init__` (lines 18-65): assert the channel and hidden
dimension lists nonempty, validate the activation and pooling type
strings, then build the feature extractor and the classifier. -/
def buildConvClassifier (cfg : ConvConfig) : Except BuildError ConvModel :=
  if cfg.channels = [] ∨ cfg.hidden_dims = [] then .error .assertionError
  else if ¬ (cfg.activation_type = "relu" ∨ cfg.activation_type = "lrelu") ∨
      ¬ (cfg.pooling_type = "max" ∨ cfg.pooling_type = "avg") then .error .valueError
  else
    match makeFeatureExtractor cfg with
    | .error et => .error et.1
    | .ok (ls, _, _, nf) =>
      .ok { feature_extractor := ⟨ls⟩
            classifier := ⟨classifierLoop cfg.activation_type cfg.act_negative_slope
              cfg.out_classes cfg.hidden_dims nf⟩
            features_num := nf }

/-- The state of a `ResidualBlock` after `__init__` finished. -/
structure ResBlockModel where
  main_path : PySeq BasicLayer
  shortcut_path : PySeq BasicLayer
deriving DecidableEq

/-- The loop of `ResidualBlock.__init__` (lines 237-258), iterating over
`(channel, kernel_size)` pairs.  Each convolution uses `bias=True` and
`padding = int(kernel_size/2)`; after the last convolution the loop breaks
before appending dropout, batchnorm or activation. -/
def resMainLoop (bn : Bool) (dp : ℚ) (actType : String) (slope : Option ℚ) :
    List (ℕ × ℕ) → ℕ → List BasicLayer
  | [], _ => []
  | [(ch, k)], cin => [.conv2d cin ch k 1 (k / 2) 1 true]
  | (ch, k) :: p :: rest, cin =>
    .conv2d cin ch k 1 (k / 2) 1 true :: .dropout2d dp ::
      ((if bn then [.batchNorm2d ch] else []) ++ classAct actType slope ++
        resMainLoop bn dp actType slope (p :: rest) ch)

/-- `ResidualBlock.__init__` (lines 187-265): assert nonempty lists of
equal length with odd kernel sizes, validate the activation type, build
the main path, and build the shortcut path: a single 1x1 convolution
without bias when the final channel count differs from `in_channels`,
an empty `nn.Sequential()` otherwise. -/
def buildResidualBlock (inC : ℕ) (channels ks : List ℕ) (bn : Bool) (dp : ℚ)
    (actType : String) (slope : Option ℚ) : Except BuildError ResBlockModel :=
  if channels = [] ∨ ks = [] then .error .assertionError
  else if channels.length ≠ ks.length then .error .assertionError
  else if ¬ (∀ k ∈ ks, k % 2 = 1) then .error .assertionError
  else if ¬ (actType = "relu" ∨ actType = "lrelu") then .error .valueError
  else
    let last := channels.getLastD 0
    .ok { main_path := ⟨resMainLoop bn dp actType slope (channels.zip ks) inC⟩
          shortcut_path := ⟨if last ≠ inC then [.conv2d inC last 1 1 0 1 false] else []⟩ }

/-- The keyword arguments `ResidualBottleneckBlock.__init__` (lines
300-306) extracts from `kwargs`, each present or absent. -/
structure BottleneckKwargs where
  batchnorm : Option Bool
  dropout : Option ℚ
  activation_type : Option String
  activation_params : Option (Option ℚ)
deriving DecidableEq

/-- The default activation type string used when `kwargs` lacks
`activation_type`. -/
def reluStr : String :=
  "relu"

/-- `ResidualBottleneckBlock.__init__` (lines 281-315): reading
`inner_channels[0]` raises `IndexError` on an empty list; otherwise the
parent `ResidualBlock` is constructed with channels
`[inner_channels[0]] + inner_channels + [in_out_channels]` and kernel
sizes `[1] + inner_kernel_sizes + [1]`. -/
def buildBottleneck (io : ℕ) (inner ks : List ℕ) (kw : BottleneckKwargs) :
    Except BuildError ResBlockModel :=
  match inner with
  | [] => .error .indexError
  | c0 :: _ =>
    buildResidualBlock io (c0 :: (inner ++ [io])) (1 :: (ks ++ [1]))
      (kw.batchnorm.getD false) (kw.dropout.getD 0)
      (kw.activation_type.getD reluStr) (kw.activation_params.getD none)

/-- The arguments of `ResNetClassifier.__init__` (lines 319-337):
those of `ConvClassifier` plus `batchnorm` and `dropout`. -/
structure ResNetConfig extends ConvConfig where
  batchnorm : Bool
  dropout : ℚ
deriving DecidableEq

/-- The state of `ResNetClassifier` (or `YourCodeNet`) after `__init__`
finished; the feature extractor may contain whole residual blocks. -/
structure ResNetModel where
  feature_extractor : PySeq Layer
  classifier : PySeq BasicLayer
  features_num : ℤ
deriving DecidableEq

/-- A pooling layer of a residual feature extractor, as a `Layer`. -/
def poolLayersL (poolType : String) (pk ps pp pd : ℕ) : List Layer :=
  (poolLayers poolType pk ps pp pd).map Layer.basic

/-- A constructed `ResidualBlock` as an element of a feature-extractor
layer list. -/
def resLayer (blk : ResBlockModel) : Layer :=
  Layer.residual blk.main_path.layers blk.shortcut_path.layers

/-- The loop of `ResNetClassifier._make_feature_extractor` (lines
368-387): per index, a `ResidualBlock` over the next `pool_every` channels
with 3x3 kernels, then a pooling layer and a spatial-size update.  The
first argument counts the remaining iterations. -/
def resnetLoop (cfg : ResNetConfig) (pk ps pp pd : ℕ) :
    ℕ → ℕ → ℕ → ℤ → ℤ → Except BuildError (List Layer × ℤ × ℤ × ℕ)
  | 0, _, cur, h, w => .ok ([], h, w, cur)
  | n + 1, index, cur, h, w =>
    let e := cfg.pool_every * (index + 1)
    let slice := (cfg.channels.drop (cfg.pool_every * index)).take cfg.pool_every
    match buildResidualBlock cur slice (List.replicate cfg.pool_every 3)
        cfg.batchnorm cfg.dropout reluStr none with
    | .error err => .error err
    | .ok blk =>
      let pls := poolLayersL cfg.pooling_type pk ps pp pd
      if ps = 0 then .error .zeroDivisionError
      else
        let h1 := pySizeUpd h pk ps pp pd
        let w1 := pySizeUpd w pk ps pp pd
        match resnetLoop cfg pk ps pp pd n (index + 1) (cfg.channels.getD (e - 1) 0) h1 w1 with
        | .error err => .error err
        | .ok (ls, h2, w2, cur2) => .ok (resLayer blk :: pls ++ ls, h2, w2, cur2)

/-- `ResNetClassifier._make_feature_extractor` (lines 339-393): read the
pooling parameters, run `int(N/P)` loop iterations, then append one more
`ResidualBlock` over the trailing `N mod P` channels when the remainder is
nonzero, and compute `features_num = channels[-1] * in_h * in_w`. -/
def resnetFE (cfg : ResNetConfig) : Except BuildError (List Layer × ℤ × ℤ × ℤ) :=
  match cfg.pooling_params.kernel_size with
  | none => .error .keyErrorKernelSize
  | some pk =>
    let ps := cfg.pooling_params.stride.getD pk
    let pp := cfg.pooling_params.padding.getD 0
    let pd := cfg.pooling_params.dilation.getD 1
    if cfg.pool_every = 0 then .error .zeroDivisionError
    else
      let n := cfg.channels.length
      let r := n % cfg.pool_every
      match resnetLoop cfg pk ps pp pd (n / cfg.pool_every) 0 cfg.in_channels cfg.in_h cfg.in_w with
      | .error err => .error err
      | .ok (ls, h, w, cur) =>
        match (if r = 0 then Except.ok [] else
            match buildResidualBlock cur (cfg.channels.drop (n - r)) (List.replicate r 3)
                cfg.batchnorm cfg.dropout reluStr none with
            | .error err => Except.error err
            | .ok blk => Except.ok [resLayer blk]) with
        | .error err => .error err
        | .ok tl =>
          match cfg.channels.getLast? with
          | none => .error .indexError
          | some clast => .ok (ls ++ tl, h, w, (clast : ℤ) * h * w)

/-- `ResNetClassifier.__init__`: stores `batchnorm`/`dropout` and runs
`ConvClassifier.__init__`, which dispatches to the overridden
`_make_feature_extractor` and then builds the same classifier part. -/
def buildResNetClassifier (cfg : ResNetConfig) : Except BuildError ResNetModel :=
  if cfg.channels = [] ∨ cfg.hidden_dims = [] then .error .assertionError
  else if ¬ (cfg.activation_type = "relu" ∨ cfg.activation_type = "lrelu") ∨
      ¬ (cfg.pooling_type = "max" ∨ cfg.pooling_type = "avg") then .error .valueError
  else
    match resnetFE cfg with
    | .error err => .error err
    | .ok (ls, _, _, nf) =>
      .ok { feature_extractor := ⟨ls⟩
            classifier := ⟨classifierLoop cfg.activation_type cfg.act_negative_slope
              cfg.out_classes cfg.hidden_dims nf⟩
            features_num := nf }

/-- The loop of `YourCodeNet._make_feature_extractor` (lines 436-454):
per index a `ResidualBlock` with `batchnorm="true"` (a truthy string) and
`dropout=0.0`; on the final iteration only, a fixed
`MaxPool2d(2, 2, 0, 1)`, a `Dropout2d(0.1)`, and the size update. -/
def yourLoop (cfg : ConvConfig) :
    ℕ → ℕ → ℕ → ℤ → ℤ → Except BuildError (List Layer × ℤ × ℤ × ℕ)
  | 0, _, cur, h, w => .ok ([], h, w, cur)
  | n + 1, index, cur, h, w =>
    let e := cfg.pool_every * (index + 1)
    let slice := (cfg.channels.drop (cfg.pool_every * index)).take cfg.pool_every
    match buildResidualBlock cur slice (List.replicate cfg.pool_every 3)
        true 0 reluStr none with
    | .error err => .error err
    | .ok blk =>
      let tl : List Layer :=
        if n = 0 then [Layer.basic (.maxPool 2 2 0 1), Layer.basic (.dropout2d (1 / 10))] else []
      let h1 := if n = 0 then pySizeUpd h 2 2 0 1 else h
      let w1 := if n = 0 then pySizeUpd w 2 2 0 1 else w
      match yourLoop cfg n (index + 1) (cfg.channels.getD (e - 1) 0) h1 w1 with
      | .error err => .error err
      | .ok (ls, h2, w2, cur2) => .ok (resLayer blk :: tl ++ ls, h2, w2, cur2)

/-- `YourCodeNet._make_feature_extractor` (lines 416-462): like the ResNet
variant but with fixed pooling parameters and pooling only after the last
full block; `conv_params` and `pooling_params` are never read. -/
def yourFE (cfg : ConvConfig) : Except BuildError (List Layer × ℤ × ℤ × ℤ) :=
  if cfg.pool_every = 0 then .error .zeroDivisionError
  else
    let n := cfg.channels.length
    let r := n % cfg.pool_every
    match yourLoop cfg (n / cfg.pool_every) 0 cfg.in_channels cfg.in_h cfg.in_w with
    | .error err => .error err
    | .ok (ls, h, w, cur) =>
      match (if r = 0 then Except.ok [] else
          match buildResidualBlock cur (cfg.channels.drop (n - r)) (List.replicate r 3)
              true 0 reluStr none with
          | .error err => Except.error err
          | .ok blk => Except.ok [resLayer blk]) with
      | .error err => .error err
      | .ok tl =>
        match cfg.channels.getLast? with
        | none => .error .indexError
        | some clast => .ok (ls ++ tl, h, w, (clast : ℤ) * h * w)

/-- The state of `YourCodeNet` after `__init__` finished; the inherited
`__init__` builds the feature extractor and classifier, lines 405-408
rebuild them identically and store an extra `nn.Dropout(0.1)` module. -/
structure YourModel where
  feature_extractor : PySeq Layer
  classifier : PySeq BasicLayer
  features_num : ℤ
  dropout : BasicLayer
deriving DecidableEq

/-- `YourCodeNet.__init__` (lines 397-409). -/
def buildYourCodeNet (cfg : ConvConfig) : Except BuildError YourModel :=
  if cfg.channels = [] ∨ cfg.hidden_dims = [] then .error .assertionError
  else if ¬ (cfg.activation_type = "relu" ∨ cfg.activation_type = "lrelu") ∨
      ¬ (cfg.pooling_type = "max" ∨ cfg.pooling_type = "avg") then .error .valueError
  else
    match yourFE cfg with
    | .error err => .error err
    | .ok (ls, _, _, nf) =>
      .ok { feature_extractor := ⟨ls⟩
            classifier := ⟨classifierLoop cfg.activation_type cfg.act_negative_slope
              cfg.out_classes cfg.hidden_dims nf⟩
            features_num := nf
            dropout := .dropout (1 / 10) }

/-! ## Specification-side descriptions

These re-derive, independently of the builder loops, the quantities the
claims talk about: the purely arithmetic spatial-size recomputation, the
block-structured shape of the assembled layer lists, and the shape
semantics of a layer path. -/

/-- Claim-side recomputation of the tracked spatial size: starting at the
1-based index `idx`, apply one convolution update per remaining channel
entry and one pooling update after every `pool_every`-th convolution. -/
def specSpatial (q : FEParams) : ℕ → ℕ → ℤ → ℤ
  | _, 0, h => h
  | idx, n + 1, h =>
    let h1 := pySizeUpd h q.ck q.cs q.cp q.cd
    specSpatial q (idx + 1) n (if idx % q.P = 0 then pySizeUpd h1 q.pk q.ps q.pp q.pd else h1)

/-- The floor-division variant of `specSpatial`, following the claim's
"standard output-size formula floor(...)" reading literally. -/
def specSpatialFloor (q : FEParams) : ℕ → ℕ → ℤ → ℤ
  | _, 0, h => h
  | idx, n + 1, h =>
    let h1 := floorSizeUpd h q.ck q.cs q.cp q.cd
    specSpatialFloor q (idx + 1) n (if idx % q.P = 0 then floorSizeUpd h1 q.pk q.ps q.pp q.pd else h1)

/-- The block of layers the feature extractor gains for the `idx`-th
convolution from `cin` to `cout` channels: the convolution, its
activation, and a pooling layer exactly when `idx` is a multiple of
`pool_every`. -/
def feBlock (q : FEParams) (cin cout idx : ℕ) : List BasicLayer :=
  BasicLayer.conv2d cin cout q.ck q.cs q.cp q.cd true ::
    (classAct q.actType q.slope ++
      (if idx % q.P = 0 then poolLayers q.poolType q.pk q.ps q.pp q.pd else []))

/-- The claim-side description of the whole feature-extractor layer list:
the concatenation of one `feBlock` per channel entry, with input channels
chaining from `cin` through `chans` and indices counting from `idx`
(`idx = 1` for the full list). -/
def feSpec (q : FEParams) (chans : List ℕ) (cin idx : ℕ) : List BasicLayer :=
  (((cin :: chans).zip chans).zip (List.range' idx chans.length)).map
    (fun pc => feBlock q pc.1.1 pc.1.2 pc.2) |>.flatten

/-- `true` exactly for the convolution layers of a layer list. -/
def BasicLayer.isConv : BasicLayer → Bool
  | .conv2d .. => true
  | _ => false

/-- `true` exactly for the pooling layers of a layer list. -/
def BasicLayer.isPool : BasicLayer → Bool
  | .maxPool .. => true
  | .avgPool .. => true
  | _ => false

/-- `true` exactly for the linear layers of a layer list. -/
def BasicLayer.isLinear : BasicLayer → Bool
  | .linear .. => true
  | _ => false

/-- Claim-side description of the classifier layer list: one
`Linear -> ACT` pair per hidden dimension, the linear input sizes chaining
from `nf` through `hidden_dims`, then a final linear layer onto
`out_classes` with nothing after it. -/
def classifierSpec (actType : String) (slope : Option ℚ) (nf : ℤ)
    (hds : List ℕ) (outClasses : ℕ) : List BasicLayer :=
  (((nf :: hds.map (fun x => (x : ℤ))).zip (hds.map (fun x => (x : ℤ)))).map
    (fun pr => BasicLayer.linear pr.1 pr.2 :: classAct actType slope)).flatten ++
  [BasicLayer.linear ((nf :: hds.map (fun x => (x : ℤ))).getLastD 0) (outClasses : ℤ)]

/-- How one layer transforms the number of channels of its input. -/
def layerOutChannels (c : ℕ) : BasicLayer → ℕ
  | .conv2d _ outC _ _ _ _ _ => outC
  | _ => c

/-- The number of output channels a layer list produces from `c` input
channels. -/
def pathOutChannels : ℕ → List BasicLayer → ℕ
  | c, [] => c
  | c, l :: rest => pathOutChannels (layerOutChannels c l) rest

/-- How one layer transforms a spatial size, by the standard output-size
arithmetic; non-convolution, non-pooling layers preserve it. -/
def layerSizeMap (s : ℤ) : BasicLayer → ℤ
  | .conv2d _ _ k st p d _ => pySizeUpd s k st p d
  | .maxPool k st p d => pySizeUpd s k st p d
  | .avgPool k st p => pySizeUpd s k st p 1
  | _ => s

/-- The spatial size a layer list produces from input size `s`. -/
def pathSizeMap : List BasicLayer → ℤ → ℤ
  | [], s => s
  | l :: rest, s => pathSizeMap rest (layerSizeMap s l)

/-- The exact domain on which `ConvClassifier.__init__` completes without
raising: nonempty `channels` and `hidden_dims`, recognised activation and
pooling types, `kernel_size` present in both parameter dictionaries, a
`negative_slope` entry whenever the activation is `lrelu`, nonzero
`pool_every`, a nonzero convolution stride, and a nonzero resolved pooling
stride whenever at least one pooling layer is placed. -/
def goodConvCfg (cfg : ConvConfig) : Prop :=
  cfg.channels ≠ [] ∧ cfg.hidden_dims ≠ [] ∧
  (cfg.activation_type = "relu" ∨ cfg.activation_type = "lrelu") ∧
  (cfg.pooling_type = "max" ∨ cfg.pooling_type = "avg") ∧
  cfg.conv_params.kernel_size ≠ none ∧
  cfg.pooling_params.kernel_size ≠ none ∧
  (cfg.activation_type = "lrelu" → cfg.act_negative_slope ≠ none) ∧
  cfg.pool_every ≠ 0 ∧
  cfg.conv_params.stride.getD 1 ≠ 0 ∧
  (cfg.pool_every ≤ cfg.channels.length →
    cfg.pooling_params.stride.getD (cfg.pooling_params.kernel_size.getD 0) ≠ 0)

instance (cfg : ConvConfig) : Decidable (goodConvCfg cfg) := by
  unfold goodConvCfg
  infer_instance

/-! ## Concrete instances used by witnesses and counterexamples -/

/-- A small well-formed `ConvClassifier` configuration. -/
def cfgMini : ConvConfig :=
  { in_channels := 1, in_h := 5, in_w := 5, out_classes := 4
    channels := [2], pool_every := 1, hidden_dims := [3]
    conv_params := { kernel_size := some 3, stride := none, padding := none, dilation := none }
    activation_type := "relu", act_negative_slope := none
    pooling_type := "max"
    pooling_params := { kernel_size := some 2, stride := none, padding := none, dilation := none } }

/-- The resolved feature-extractor parameters of `cfgMini`. -/
def feParamsMini : FEParams :=
  { ck := 3, cs := 1, cp := 0, cd := 1, pk := 2, ps := 2, pp := 0, pd := 1
    P := 1, actType := "relu", slope := none, poolType := "max" }

/-- The model `cfgMini` constructs. -/
def mMini : ConvModel :=
  { feature_extractor := ⟨[.conv2d 1 2 3 1 0 1 true, .relu, .maxPool 2 2 0 1]⟩
    classifier := ⟨[.linear 2 3, .relu, .linear 3 4]⟩
    features_num := 2 }

/-- A configuration on which the tracked spatial size and the floor
formula disagree: the first convolution has kernel 2 and stride 2 on a
1-pixel input, so the update numerator is negative. -/
def cfgTrunc : ConvConfig :=
  { in_channels := 1, in_h := 1, in_w := 1, out_classes := 1
    channels := [1], pool_every := 1, hidden_dims := [1]
    conv_params := { kernel_size := some 2, stride := some 2, padding := none, dilation := none }
    activation_type := "relu", act_negative_slope := none
    pooling_type := "max"
    pooling_params := { kernel_size := some 1, stride := none, padding := none, dilation := none } }

/-- The resolved feature-extractor parameters of `cfgTrunc`. -/
def feParamsTrunc : FEParams :=
  { ck := 2, cs := 2, cp := 0, cd := 1, pk := 1, ps := 1, pp := 0, pd := 1
    P := 1, actType := "relu", slope := none, poolType := "max" }

/-- A configuration with valid types and nonempty lists whose parameter
dictionaries are the default empty dictionaries. -/
def cfgNoKernel : ConvConfig :=
  { in_channels := 3, in_h := 8, in_w := 8, out_classes := 2
    channels := [4], pool_every := 1, hidden_dims := [5]
    conv_params := { kernel_size := none, stride := none, padding := none, dilation := none }
    activation_type := "relu", act_negative_slope := none
    pooling_type := "max"
    pooling_params := { kernel_size := none, stride := none, padding := none, dilation := none } }

/-- A small well-formed `ResNetClassifier` configuration. -/
def rcfgMini : ResNetConfig :=
  { in_channels := 1, in_h := 8, in_w := 8, out_classes := 2
    channels := [2, 2], pool_every := 2, hidden_dims := [3]
    conv_params := { kernel_size := none, stride := none, padding := none, dilation := none }
    activation_type := "relu", act_negative_slope := none
    pooling_type := "max"
    pooling_params := { kernel_size := some 2, stride := none, padding := none, dilation := none }
    batchnorm := false, dropout := 0 }

/-- The residual block `buildResidualBlock 3 [4] [3] false 0 "relu" none`
constructs. -/
def blkMini : ResBlockModel :=
  { main_path := ⟨[.conv2d 3 4 3 1 1 1 true]⟩
    shortcut_path := ⟨[.conv2d 3 4 1 1 0 1 false]⟩ }

/-- The bottleneck block `buildBottleneck 4 [2] [3]` (no kwargs)
constructs. -/
def bneckMini : ResBlockModel :=
  { main_path := ⟨[.conv2d 4 2 1 1 0 1 true, .dropout2d 0, .relu,
      .conv2d 2 2 3 1 1 1 true, .dropout2d 0, .relu, .conv2d 2 4 1 1 0 1 true]⟩
    shortcut_path := ⟨[]⟩ }

/-! ## Helper lemmas -/

theorem feSpec_nil (q : FEParams) (cin idx : ℕ) : feSpec q [] cin idx = [] := by
  simp [feSpec]

theorem feSpec_cons (q : FEParams) (c : ℕ) (rest : List ℕ) (cin idx : ℕ) :
    feSpec q (c :: rest) cin idx = feBlock q cin c idx ++ feSpec q rest c (idx + 1) := by
  simp [feSpec, List.range'_succ]

theorem actLayersE_ok {a : String} {s : Option ℚ} {acts : List BasicLayer}
    (h : actLayersE a s = .ok acts) : acts = classAct a s := by
  by_cases ha : a = "relu"
  · simp [actLayersE, ha] at h
    simp [classAct, ha, h]
  · by_cases hb : a = "lrelu"
    · cases s with
      | some v =>
        simp [actLayersE, ha, hb] at h
        simp [classAct, ha, hb, h]
      | none => simp [actLayersE, ha, hb] at h
    · simp [actLayersE, ha, hb] at h
      simp [classAct, ha, hb, h]

theorem feLoop_ok_spec (q : FEParams) :
    ∀ (chans : List ℕ) (cin idx : ℕ) (h w : ℤ) (ls : List BasicLayer) (h' w' : ℤ),
      feLoop q chans cin idx h w = .ok (ls, h', w') →
      ls = feSpec q chans cin idx ∧
      h' = specSpatial q idx chans.length h ∧
      w' = specSpatial q idx chans.length w := by
  intro chans
  induction chans with
  | nil =>
    intro cin idx h w ls h' w' hok
    simp only [feLoop, Except.ok.injEq, Prod.mk.injEq] at hok
    obtain ⟨rfl, rfl, rfl⟩ := hok
    simp [feSpec_nil, specSpatial]
  | cons c rest ih =>
    intro cin idx h w ls h' w' hok
    simp only [feLoop] at hok
    split at hok
    · simp at hok
    next hcs =>
      split at hok
      next e heq => simp at hok
      next acts hacts =>
        split at hok
        · simp at hok
        next hP =>
          split at hok
          next hidx =>
            split at hok
            · simp at hok
            next hps =>
              split at hok
              next e tr heq => simp at hok
              next ls0 h3 w3 heq =>
                simp only [Except.ok.injEq, Prod.mk.injEq] at hok
                obtain ⟨rfl, rfl, rfl⟩ := hok
                obtain ⟨hls, hh, hw⟩ := ih c (idx + 1) _ _ ls0 h3 w3 heq
                refine ⟨?_, ?_, ?_⟩
                · rw [hls, actLayersE_ok hacts, feSpec_cons]
                  simp [feBlock, hidx]
                · simp [specSpatial, hidx, hh]
                · simp [specSpatial, hidx, hw]
          next hidx =>
            split at hok
            next e tr heq => simp at hok
            next ls0 h3 w3 heq =>
              simp only [Except.ok.injEq, Prod.mk.injEq] at hok
              obtain ⟨rfl, rfl, rfl⟩ := hok
              obtain ⟨hls, hh, hw⟩ := ih c (idx + 1) _ _ ls0 h3 w3 heq
              refine ⟨?_, ?_, ?_⟩
              · rw [hls, actLayersE_ok hacts, feSpec_cons]
                simp [feBlock, hidx]
              · simp [specSpatial, hidx, hh]
              · simp [specSpatial, hidx, hw]

theorem resolveFEParams_ok_inv {cfg : ConvConfig} {q : FEParams}
    (h : resolveFEParams cfg = .ok q) :
    ∃ ck pk, cfg.conv_params.kernel_size = some ck ∧
      cfg.pooling_params.kernel_size = some pk ∧
      q = { ck := ck
            cs := cfg.conv_params.stride.getD 1
            cp := cfg.conv_params.padding.getD 0
            cd := cfg.conv_params.dilation.getD 1
            pk := pk
            ps := cfg.pooling_params.stride.getD pk
            pp := cfg.pooling_params.padding.getD 0
            pd := cfg.pooling_params.dilation.getD 1
            P := cfg.pool_every
            actType := cfg.activation_type
            slope := cfg.act_negative_slope
            poolType := cfg.pooling_type } := by
  unfold resolveFEParams at h
  split at h
  · simp at h
  next ck hck =>
    split at h
    · simp at h
    next pk hpk =>
      simp only [Except.ok.injEq] at h
      exact ⟨ck, pk, hck, hpk, h.symm⟩

theorem makeFE_ok_inv {cfg : ConvConfig} {ls : List BasicLayer} {h w nf : ℤ}
    (hf : makeFeatureExtractor cfg = .ok (ls, h, w, nf)) :
    ∃ q clast, resolveFEParams cfg = .ok q ∧
      feLoop q cfg.channels cfg.in_channels 1 cfg.in_h cfg.in_w = .ok (ls, h, w) ∧
      cfg.channels.getLast? = some clast ∧ nf = (clast : ℤ) * h * w := by
  unfold makeFeatureExtractor at hf
  split at hf
  · simp at hf
  next q hq =>
    split at hf
    · simp at hf
    next ls0 h0 w0 hloop =>
      split at hf
      · simp at hf
      next clast hlast =>
        simp only [Except.ok.injEq, Prod.mk.injEq] at hf
        obtain ⟨rfl, rfl, rfl, rfl⟩ := hf
        exact ⟨q, clast, hq, hloop, hlast, rfl⟩

theorem buildConv_ok_inv {cfg : ConvConfig} {m : ConvModel}
    (hm : buildConvClassifier cfg = .ok m) :
    ∃ ls h w nf, makeFeatureExtractor cfg = .ok (ls, h, w, nf) ∧
      m = { feature_extractor := ⟨ls⟩
            classifier := ⟨classifierLoop cfg.activation_type cfg.act_negative_slope
              cfg.out_classes cfg.hidden_dims nf⟩
            features_num := nf } ∧
      cfg.channels ≠ [] ∧ cfg.hidden_dims ≠ [] ∧
      (cfg.activation_type = "relu" ∨ cfg.activation_type = "lrelu") ∧
      (cfg.pooling_type = "max" ∨ cfg.pooling_type = "avg") := by
  unfold buildConvClassifier at hm
  split at hm
  · simp at hm
  next hne =>
    split at hm
    · simp at hm
    next hval =>
      split at hm
      · simp at hm
      next ls h w nf hfe =>
        simp only [Except.ok.injEq] at hm
        push_neg at hne hval
        exact ⟨ls, h, w, nf, hfe, hm.symm, hne.1, hne.2, hval.1, hval.2⟩

theorem getLastD_of_getLast? {α : Type} {l : List α} {c : α} (h : l.getLast? = some c)
    (d : α) : l.getLastD d = c := by
  rw [List.getLastD_eq_getLast?, h]
  rfl

/-- C1: for every successfully constructed `ConvClassifier` with
`in_size = (C, H, W)`, `_n_features()` returns `channels[-1] * H' * W'`,
where `H'` and `W'` arise from `H` and `W` by one convolution output-size
update per entry of `channels` and one pooling update after every
`pool_every`-th convolution, computed purely arithmetically
(`specSpatial`) with no forward pass. -/
theorem C1_n_features (cfg : ConvConfig) (q : FEParams) (m : ConvModel)
    (hq : resolveFEParams cfg = .ok q)
    (hm : buildConvClassifier cfg = .ok m) :
    nFeatures m = (cfg.channels.getLastD 0 : ℤ) *
      specSpatial q 1 cfg.channels.length cfg.in_h *
      specSpatial q 1 cfg.channels.length cfg.in_w := by
  obtain ⟨ls, h, w, nf, hfe, hmodel, -, -, -, -⟩ := buildConv_ok_inv hm
  obtain ⟨q', clast, hq', hloop, hlast, hnf⟩ := makeFE_ok_inv hfe
  have hqq : q = q' := Except.ok.inj (hq.symm.trans hq')
  subst hqq
  obtain ⟨-, hh, hw⟩ := feLoop_ok_spec q cfg.channels cfg.in_channels 1
    cfg.in_h cfg.in_w ls h w hloop
  rw [hmodel]
  rw [getLastD_of_getLast? hlast]
  simp only [nFeatures]
  rw [hnf, hh, hw]

/-- Closed witness for C1 at `cfgMini`. -/
theorem C1_n_features_witness :
    nFeatures mMini = (cfgMini.channels.getLastD 0 : ℤ) *
      specSpatial feParamsMini 1 cfgMini.channels.length cfgMini.in_h *
      specSpatial feParamsMini 1 cfgMini.channels.length cfgMini.in_w :=
  C1_n_features cfgMini feParamsMini mMini rfl rfl

theorem classAct_countP_conv (a : String) (s : Option ℚ) :
    (classAct a s).countP BasicLayer.isConv = 0 := by
  unfold classAct
  split
  · rfl
  · split
    · split <;> rfl
    · rfl

theorem classAct_countP_pool (a : String) (s : Option ℚ) :
    (classAct a s).countP BasicLayer.isPool = 0 := by
  unfold classAct
  split
  · rfl
  · split
    · split <;> rfl
    · rfl

theorem classAct_countP_linear (a : String) (s : Option ℚ) :
    (classAct a s).countP BasicLayer.isLinear = 0 := by
  unfold classAct
  split
  · rfl
  · split
    · split <;> rfl
    · rfl

theorem poolLayers_countP_conv (pt : String) (pk ps pp pd : ℕ) :
    (poolLayers pt pk ps pp pd).countP BasicLayer.isConv = 0 := by
  unfold poolLayers
  split
  · rfl
  · split <;> rfl

theorem poolLayers_countP_pool {pt : String} (hpt : pt = "max" ∨ pt = "avg")
    (pk ps pp pd : ℕ) :
    (poolLayers pt pk ps pp pd).countP BasicLayer.isPool = 1 := by
  rcases hpt with h | h <;> subst h <;> rfl

theorem feSpec_countP_conv (q : FEParams) :
    ∀ (chans : List ℕ) (cin idx : ℕ),
      (feSpec q chans cin idx).countP BasicLayer.isConv = chans.length := by
  intro chans
  induction chans with
  | nil => intro cin idx; simp [feSpec_nil]
  | cons c rest ih =>
    intro cin idx
    rw [feSpec_cons, List.countP_append, ih c (idx + 1)]
    simp [feBlock, List.countP_cons, List.countP_append, classAct_countP_conv,
      BasicLayer.isConv]
    split <;> simp [poolLayers_countP_conv] <;> omega

theorem feSpec_countP_pool (q : FEParams) (hpt : q.poolType = "max" ∨ q.poolType = "avg") :
    ∀ (chans : List ℕ) (cin idx : ℕ),
      (feSpec q chans cin idx).countP BasicLayer.isPool =
        (List.range' idx chans.length).countP (fun i => decide (i % q.P = 0)) := by
  intro chans
  induction chans with
  | nil => intro cin idx; simp [feSpec_nil]
  | cons c rest ih =>
    intro cin idx
    rw [feSpec_cons, List.countP_append, ih c (idx + 1)]
    simp only [List.length_cons]
    rw [List.range'_succ, List.countP_cons]
    simp only [feBlock, List.countP_cons, List.countP_append, classAct_countP_pool,
      BasicLayer.isPool]
    split
    next hidx => simp [poolLayers_countP_pool hpt, hidx, Nat.add_comm]
    next hidx => simp [hidx, Nat.add_comm]

theorem range'_countP_mod (P : ℕ) :
    ∀ n : ℕ, (List.range' 1 n).countP (fun i => decide (i % P = 0)) = n / P := by
  intro n
  induction n with
  | zero => simp
  | succ n ih =>
    rw [List.range'_concat, List.countP_append, ih]
    by_cases hd : P ∣ n + 1
    · have hm : (1 + n) % P = 0 := by
        rw [Nat.add_comm]
        exact Nat.dvd_iff_mod_eq_zero.mp hd
      simp [List.countP_cons, hm, Nat.succ_div, hd]
    · have hm : ¬ (1 + n) % P = 0 := by
        rw [Nat.add_comm]
        exact fun h => hd (Nat.dvd_iff_mod_eq_zero.mpr h)
      simp [List.countP_cons, hm, Nat.succ_div, hd]

theorem feLoop_ok_nec (q : FEParams) :
    ∀ (chans : List ℕ) (cin idx : ℕ) (h w : ℤ) (r : List BasicLayer × ℤ × ℤ),
      chans ≠ [] → feLoop q chans cin idx h w = .ok r →
      q.cs ≠ 0 ∧ (∃ acts, actLayersE q.actType q.slope = .ok acts) ∧ q.P ≠ 0 ∧
      (∀ j, j < chans.length → (idx + j) % q.P = 0 → q.ps ≠ 0) := by
  intro chans
  induction chans with
  | nil => intro _ _ _ _ _ hne; exact absurd rfl hne
  | cons c rest ih =>
    intro cin idx h w r _ hok
    simp only [feLoop] at hok
    split at hok
    · simp at hok
    next hcs =>
      split at hok
      next e heq => simp at hok
      next acts hacts =>
        split at hok
        · simp at hok
        next hP =>
          refine ⟨hcs, ⟨acts, hacts⟩, hP, ?_⟩
          intro j hj hjm
          cases j with
          | zero =>
            simp only [Nat.add_zero] at hjm
            split at hok
            next hidx =>
              split at hok
              next hps => simp at hok
              next hps => exact hps
            next hidx => exact absurd hjm hidx
          | succ j =>
            have hrne : rest ≠ [] := by
              cases rest
              · simp at hj
              · simp
            have hlt : j < rest.length := by
              simp only [List.length_cons] at hj
              omega
            have hadd : idx + 1 + j = idx + (j + 1) := by omega
            split at hok
            next hidx =>
              split at hok
              next hps => simp at hok
              next hps =>
                split at hok
                next e tr heq => simp at hok
                next ls0 h3 w3 heq =>
                  obtain ⟨-, -, -, hrest⟩ := ih c (idx + 1) _ _ _ hrne heq
                  exact hrest j hlt (by rw [hadd]; exact hjm)
            next hidx =>
              split at hok
              next e tr heq => simp at hok
              next ls0 h3 w3 heq =>
                obtain ⟨-, -, -, hrest⟩ := ih c (idx + 1) _ _ _ hrne heq
                exact hrest j hlt (by rw [hadd]; exact hjm)

/-- C2: for every successfully constructed `ConvClassifier`, the feature
extractor is the ordered concatenation of one block per entry of
`channels` — a convolution whose in/out channels chain from `in_size[0]`
through `channels`, immediately followed by exactly one activation, and by
exactly one pooling layer exactly when the 1-based position is a multiple
of `pool_every` (`feSpec`) — so it contains `len(channels)` convolutions
and `len(channels) / pool_every` pooling layers, and the trailing
`len(channels) mod pool_every` pairs have no pooling after them. -/
theorem C2_feature_extractor_structure (cfg : ConvConfig) (q : FEParams) (m : ConvModel)
    (hq : resolveFEParams cfg = .ok q)
    (hm : buildConvClassifier cfg = .ok m) :
    m.feature_extractor.layers = feSpec q cfg.channels cfg.in_channels 1 ∧
    m.feature_extractor.layers.countP BasicLayer.isConv = cfg.channels.length ∧
    m.feature_extractor.layers.countP BasicLayer.isPool =
      cfg.channels.length / cfg.pool_every := by
  obtain ⟨ls, h, w, nf, hfe, hmodel, hchne, -, -, hpool⟩ := buildConv_ok_inv hm
  obtain ⟨q', clast, hq', hloop, hlast, hnf⟩ := makeFE_ok_inv hfe
  have hqq : q = q' := Except.ok.inj (hq.symm.trans hq')
  subst hqq
  obtain ⟨hls, -, -⟩ := feLoop_ok_spec q cfg.channels cfg.in_channels 1
    cfg.in_h cfg.in_w ls h w hloop
  obtain ⟨ck, pk, hck, hpk, hqdef⟩ := resolveFEParams_ok_inv hq
  have hP : q.P = cfg.pool_every := by rw [hqdef]
  have hpt : q.poolType = "max" ∨ q.poolType = "avg" := by rw [hqdef]; exact hpool
  rw [hmodel]
  refine ⟨hls, ?_, ?_⟩
  · rw [hls]
    exact feSpec_countP_conv q cfg.channels cfg.in_channels 1
  · rw [hls, feSpec_countP_pool q hpt cfg.channels cfg.in_channels 1,
      range'_countP_mod q.P cfg.channels.length, hP]

/-- Closed witness for C2 at `cfgMini`. -/
theorem C2_feature_extractor_structure_witness :
    mMini.feature_extractor.layers = feSpec feParamsMini cfgMini.channels cfgMini.in_channels 1 ∧
    mMini.feature_extractor.layers.countP BasicLayer.isConv = cfgMini.channels.length ∧
    mMini.feature_extractor.layers.countP BasicLayer.isPool =
      cfgMini.channels.length / cfgMini.pool_every :=
  C2_feature_extractor_structure cfgMini feParamsMini mMini rfl rfl

/-- C3 counterexample: the code truncates the division toward zero
(Python `int()`), not toward minus infinity.  On `cfgTrunc`
(1-pixel input, first convolution with kernel 2 and stride 2) the update
numerator is `-1`: the code computes `int(-1/2)+1 = 1` and construction
succeeds with `features_num = 1`, while the claimed floor formula gives
`floor(-1/2)+1 = 0` and a feature count of `0`. -/
theorem C3_floor_formula_counterexample :
    (buildConvClassifier cfgTrunc).map (fun m => m.features_num) = .ok 1 ∧
    pySizeUpd 1 2 2 0 1 = 1 ∧
    floorSizeUpd 1 2 2 0 1 = 0 ∧
    resolveFEParams cfgTrunc = .ok feParamsTrunc ∧
    (cfgTrunc.channels.getLastD 0 : ℤ) *
      specSpatialFloor feParamsTrunc 1 cfgTrunc.channels.length cfgTrunc.in_h *
      specSpatialFloor feParamsTrunc 1 cfgTrunc.channels.length cfgTrunc.in_w = 0 :=
  ⟨rfl, by decide, by decide, rfl, by decide⟩

/-- C3 amended: every tracked spatial-size update applies
`int((size + 2*padding - dilation*(kernel-1) - 1)/stride) + 1` with the
quotient truncated toward zero (`pySizeUpd`, used for both convolution
and pooling updates with the stated per-kind defaults); this coincides
with the claimed floor-division formula whenever the update numerator is
nonnegative, which holds in every configuration whose intermediate sizes
remain at least 1. -/
theorem C3_size_update_amended (size : ℤ) (k s p d : ℕ) (hs : s ≠ 0)
    (hnum : 0 ≤ size + 2 * (p : ℤ) - (d : ℤ) * ((k : ℤ) - 1) - 1) :
    pySizeUpd size k s p d = floorSizeUpd size k s p d := by
  unfold pySizeUpd floorSizeUpd
  congr 1
  rw [Int.tdiv_eq_ediv hnum (by positivity), Int.fdiv_eq_ediv _ (by positivity)]

/-- Closed witness for the amended C3 at a nonnegative-numerator input. -/
theorem C3_size_update_amended_witness :
    pySizeUpd 7 3 2 0 1 = floorSizeUpd 7 3 2 0 1 :=
  C3_size_update_amended 7 3 2 0 1 (by decide) (by decide)

theorem feLoop_ok_suf (q : FEParams) :
    ∀ (chans : List ℕ) (cin idx : ℕ) (h w : ℤ),
      q.cs ≠ 0 → q.P ≠ 0 →
      (∃ acts, actLayersE q.actType q.slope = .ok acts) →
      (∀ j, j < chans.length → (idx + j) % q.P = 0 → q.ps ≠ 0) →
      ∃ r, feLoop q chans cin idx h w = .ok r := by
  intro chans
  induction chans with
  | nil => intro cin idx h w _ _ _ _; exact ⟨([], h, w), rfl⟩
  | cons c rest ih =>
    intro cin idx h w hcs hP hacts hps
    obtain ⟨acts, hacts⟩ := hacts
    have hshift : ∀ j, j < rest.length → (idx + 1 + j) % q.P = 0 → q.ps ≠ 0 := by
      intro j hj hm
      refine hps (j + 1) (by simp only [List.length_cons]; omega) ?_
      have hadd : idx + (j + 1) = idx + 1 + j := by omega
      rw [hadd]
      exact hm
    by_cases hidx : idx % q.P = 0
    · have hpsne : q.ps ≠ 0 := hps 0 (by simp) (by simpa using hidx)
      obtain ⟨⟨ls0, h3, w3⟩, hrec⟩ := ih c (idx + 1)
        (pySizeUpd (pySizeUpd h q.ck q.cs q.cp q.cd) q.pk q.ps q.pp q.pd)
        (pySizeUpd (pySizeUpd w q.ck q.cs q.cp q.cd) q.pk q.ps q.pp q.pd)
        hcs hP ⟨acts, hacts⟩ hshift
      refine ⟨(BasicLayer.conv2d cin c q.ck q.cs q.cp q.cd true ::
        acts ++ poolLayers q.poolType q.pk q.ps q.pp q.pd ++ ls0, h3, w3), ?_⟩
      simp only [feLoop, if_neg hcs, hacts, if_neg hP, if_pos hidx, if_neg hpsne, hrec]
    · obtain ⟨⟨ls0, h3, w3⟩, hrec⟩ := ih c (idx + 1)
        (pySizeUpd h q.ck q.cs q.cp q.cd) (pySizeUpd w q.ck q.cs q.cp q.cd)
        hcs hP ⟨acts, hacts⟩ hshift
      refine ⟨(BasicLayer.conv2d cin c q.ck q.cs q.cp q.cd true :: acts ++ ls0, h3, w3), ?_⟩
      simp only [feLoop, if_neg hcs, hacts, if_neg hP, if_neg hidx, hrec]

/-- C4 counterexample: `cfgNoKernel` satisfies every condition the claim
allows to fail (recognised types, nonempty lists), so the claim says its
construction completes without raising; the code instead raises
`KeyError` on the default empty `conv_params` dictionary. -/
theorem C4_validation_counterexample :
    cfgNoKernel.activation_type = "relu" ∧ cfgNoKernel.pooling_type = "max" ∧
    cfgNoKernel.channels ≠ [] ∧ cfgNoKernel.hidden_dims ≠ [] ∧
    buildConvClassifier cfgNoKernel = .error .keyErrorKernelSize :=
  ⟨rfl, rfl, by decide, by decide, rfl⟩

/-- C4 amended: `ConvClassifier.__init__` fails exactly when the claim's
conditions are violated (unsupported `activation_type` or `pooling_type`
— `ValueError`; empty `channels` or `hidden_dims` — assertion failure) or
when one of the additional failure modes of the construction code fires:
`kernel_size` missing from `conv_params` or `pooling_params` (`KeyError`),
activation `lrelu` with no `negative_slope` entry (`KeyError`),
`pool_every = 0` (`ZeroDivisionError`), a zero convolution stride, or a
zero resolved pooling stride when at least one pooling layer is placed
(`ZeroDivisionError` in the size update). -/
theorem C4_construction_domain_amended (cfg : ConvConfig) :
    (∃ m, buildConvClassifier cfg = .ok m) ↔ goodConvCfg cfg := by
  constructor
  · rintro ⟨m, hm⟩
    obtain ⟨ls, h, w, nf, hfe, -, hch, hhd, hact, hpool⟩ := buildConv_ok_inv hm
    obtain ⟨q, clast, hq, hloop, hlast, -⟩ := makeFE_ok_inv hfe
    obtain ⟨ck, pk, hck, hpk, hqdef⟩ := resolveFEParams_ok_inv hq
    obtain ⟨hcs, hacts, hP, hps⟩ :=
      feLoop_ok_nec q cfg.channels cfg.in_channels 1 cfg.in_h cfg.in_w _ hch hloop
    subst hqdef
    have hP' : cfg.pool_every ≠ 0 := hP
    have hcs' : cfg.conv_params.stride.getD 1 ≠ 0 := hcs
    have hps' : ∀ j, j < cfg.channels.length → (1 + j) % cfg.pool_every = 0 →
        cfg.pooling_params.stride.getD pk ≠ 0 := hps
    refine ⟨hch, hhd, hact, hpool, by simp [hck], by simp [hpk], ?_, hP', hcs', ?_⟩
    · intro hlr hsl
      obtain ⟨acts, hacts⟩ := hacts
      simp [actLayersE, hlr, hsl] at hacts
    · intro hle
      have hone : (1 : ℕ) + (cfg.pool_every - 1) = cfg.pool_every := by omega
      have hmod : (1 + (cfg.pool_every - 1)) % cfg.pool_every = 0 := by
        rw [hone]
        exact Nat.mod_self _
      have hlast' := hps' (cfg.pool_every - 1) (by omega) hmod
      simpa [hpk] using hlast'
  · rintro ⟨hch, hhd, hact, hpool, hck, hpk, hsl, hP, hcs, hps⟩
    obtain ⟨ck, hck'⟩ := Option.ne_none_iff_exists'.mp hck
    obtain ⟨pk, hpk'⟩ := Option.ne_none_iff_exists'.mp hpk
    have hq : resolveFEParams cfg = .ok
        { ck := ck
          cs := cfg.conv_params.stride.getD 1
          cp := cfg.conv_params.padding.getD 0
          cd := cfg.conv_params.dilation.getD 1
          pk := pk
          ps := cfg.pooling_params.stride.getD pk
          pp := cfg.pooling_params.padding.getD 0
          pd := cfg.pooling_params.dilation.getD 1
          P := cfg.pool_every
          actType := cfg.activation_type
          slope := cfg.act_negative_slope
          poolType := cfg.pooling_type } := by
      simp [resolveFEParams, hck', hpk']
    have hacts : ∃ acts, actLayersE cfg.activation_type cfg.act_negative_slope = .ok acts := by
      rcases hact with hr | hl
      · exact ⟨[.relu], by simp [actLayersE, hr]⟩
      · obtain ⟨v, hv⟩ := Option.ne_none_iff_exists'.mp (hsl hl)
        exact ⟨[.lrelu (some v)], by simp [actLayersE, hl, hv]⟩
    have hpsc : ∀ j, j < cfg.channels.length →
        (1 + j) % cfg.pool_every = 0 → cfg.pooling_params.stride.getD pk ≠ 0 := by
      intro j hj hm
      have hdvd : cfg.pool_every ∣ 1 + j := Nat.dvd_iff_mod_eq_zero.mpr hm
      have hle : cfg.pool_every ≤ cfg.channels.length :=
        le_trans (Nat.le_of_dvd (by omega) hdvd) (by omega)
      simpa [hpk'] using hps hle
    obtain ⟨⟨ls, hh, ww⟩, hloop⟩ :=
      feLoop_ok_suf
        { ck := ck
          cs := cfg.conv_params.stride.getD 1
          cp := cfg.conv_params.padding.getD 0
          cd := cfg.conv_params.dilation.getD 1
          pk := pk
          ps := cfg.pooling_params.stride.getD pk
          pp := cfg.pooling_params.padding.getD 0
          pd := cfg.pooling_params.dilation.getD 1
          P := cfg.pool_every
          actType := cfg.activation_type
          slope := cfg.act_negative_slope
          poolType := cfg.pooling_type }
        cfg.channels cfg.in_channels 1 cfg.in_h cfg.in_w hcs hP hacts hpsc
    obtain ⟨clast, hlast⟩ := Option.isSome_iff_exists.mp
      (List.getLast?_isSome.mpr hch)
    have hfe : makeFeatureExtractor cfg = .ok (ls, hh, ww, (clast : ℤ) * hh * ww) := by
      simp [makeFeatureExtractor, hq, hloop, hlast]
    refine ⟨{ feature_extractor := ⟨ls⟩
              classifier := ⟨classifierLoop cfg.activation_type cfg.act_negative_slope
                cfg.out_classes cfg.hidden_dims ((clast : ℤ) * hh * ww)⟩
              features_num := (clast : ℤ) * hh * ww }, ?_⟩
    unfold buildConvClassifier
    rw [if_neg (by simp [hch, hhd]), if_neg (by simp [hact, hpool]), hfe]

/-- C5: architecture construction is deterministic — two `ConvClassifier`
(or `ResNetClassifier`) constructions from equal arguments produce equal
results: the same ordered layer structure and the same `_n_features()`
value (construction is a pure function of its arguments; no randomness
enters the layer graph or the feature count). -/
theorem C5_deterministic (c1 c2 : ConvConfig) (r1 r2 : ResNetConfig)
    (hc : c1 = c2) (hr : r1 = r2) :
    buildConvClassifier c1 = buildConvClassifier c2 ∧
    (buildConvClassifier c1).map (fun m => nFeatures m) =
      (buildConvClassifier c2).map (fun m => nFeatures m) ∧
    buildResNetClassifier r1 = buildResNetClassifier r2 := by
  subst hc
  subst hr
  exact ⟨rfl, rfl, rfl⟩

/-- Closed witness for C5. -/
theorem C5_deterministic_witness :
    buildConvClassifier cfgMini = buildConvClassifier cfgMini ∧
    (buildConvClassifier cfgMini).map (fun m => nFeatures m) =
      (buildConvClassifier cfgMini).map (fun m => nFeatures m) ∧
    buildResNetClassifier rcfgMini = buildResNetClassifier rcfgMini :=
  C5_deterministic cfgMini cfgMini rcfgMini rcfgMini rfl rfl

theorem classifierLoop_eq_spec (a : String) (s : Option ℚ) (oc : ℕ) :
    ∀ (hds : List ℕ) (nf : ℤ),
      classifierLoop a s oc hds nf = classifierSpec a s nf hds oc := by
  intro hds
  induction hds with
  | nil => intro nf; simp [classifierLoop, classifierSpec]
  | cons hd rest ih =>
    intro nf
    rw [show classifierLoop a s oc (hd :: rest) nf = .linear nf (hd : ℤ) ::
      (classAct a s ++ classifierLoop a s oc rest (hd : ℤ)) from rfl, ih]
    simp [classifierSpec, List.getLastD_cons]

theorem classifierLoop_countP_linear (a : String) (s : Option ℚ) (oc : ℕ) :
    ∀ (hds : List ℕ) (nf : ℤ),
      (classifierLoop a s oc hds nf).countP BasicLayer.isLinear = hds.length + 1 := by
  intro hds
  induction hds with
  | nil => intro nf; rfl
  | cons hd rest ih =>
    intro nf
    simp only [classifierLoop, List.countP_cons, List.countP_append, ih,
      classAct_countP_linear, List.length_cons]
    simp [BasicLayer.isLinear]

/-- C6: for every successfully constructed `ConvClassifier`, the
classifier is exactly `len(hidden_dims) + 1` linear layers: the first
takes `_n_features()` inputs, the linear layers chain through
`hidden_dims` with one activation after each hidden linear layer, and the
final linear layer outputs `out_classes` values with nothing after it
(`classifierSpec`). -/
theorem C6_classifier_structure (cfg : ConvConfig) (m : ConvModel)
    (hm : buildConvClassifier cfg = .ok m) :
    m.classifier.layers = classifierSpec cfg.activation_type cfg.act_negative_slope
      (nFeatures m) cfg.hidden_dims cfg.out_classes ∧
    m.classifier.layers.countP BasicLayer.isLinear = cfg.hidden_dims.length + 1 := by
  obtain ⟨ls, h, w, nf, hfe, hmodel, -, -, -, -⟩ := buildConv_ok_inv hm
  subst hmodel
  constructor
  · exact classifierLoop_eq_spec _ _ _ _ _
  · exact classifierLoop_countP_linear _ _ _ _ _

/-- Closed witness for C6 at `cfgMini`. -/
theorem C6_classifier_structure_witness :
    mMini.classifier.layers = classifierSpec cfgMini.activation_type
      cfgMini.act_negative_slope (nFeatures mMini) cfgMini.hidden_dims cfgMini.out_classes ∧
    mMini.classifier.layers.countP BasicLayer.isLinear = cfgMini.hidden_dims.length + 1 :=
  C6_classifier_structure cfgMini mMini rfl

theorem buildResidualBlock_ok_inv {inC : ℕ} {channels ks : List ℕ} {bn : Bool} {dp : ℚ}
    {a : String} {sl : Option ℚ} {blk : ResBlockModel}
    (hok : buildResidualBlock inC channels ks bn dp a sl = .ok blk) :
    channels ≠ [] ∧ ks ≠ [] ∧ channels.length = ks.length ∧ (∀ k ∈ ks, k % 2 = 1) ∧
    (a = "relu" ∨ a = "lrelu") ∧
    blk = { main_path := ⟨resMainLoop bn dp a sl (channels.zip ks) inC⟩
            shortcut_path := ⟨if channels.getLastD 0 ≠ inC then
              [.conv2d inC (channels.getLastD 0) 1 1 0 1 false] else []⟩ } := by
  unfold buildResidualBlock at hok
  split at hok
  · simp at hok
  next hne =>
    split at hok
    · simp at hok
    next hlen =>
      split at hok
      · simp at hok
      next hodd =>
        split at hok
        · simp at hok
        next hval =>
          simp only [Except.ok.injEq] at hok
          push_neg at hne
          exact ⟨hne.1, hne.2, not_ne_iff.mp hlen, not_not.mp hodd, not_not.mp hval, hok.symm⟩

theorem buildResNet_ok_inv {rcfg : ResNetConfig} {rm : ResNetModel}
    (hm : buildResNetClassifier rcfg = .ok rm) :
    ∃ ls h w nf, resnetFE rcfg = .ok (ls, h, w, nf) ∧
      rm = { feature_extractor := ⟨ls⟩
             classifier := ⟨classifierLoop rcfg.activation_type rcfg.act_negative_slope
               rcfg.out_classes rcfg.hidden_dims nf⟩
             features_num := nf } := by
  unfold buildResNetClassifier at hm
  split at hm
  · simp at hm
  · split at hm
    · simp at hm
    · split at hm
      · simp at hm
      next ls h w nf hfe =>
        simp only [Except.ok.injEq] at hm
        exact ⟨ls, h, w, nf, hfe, hm.symm⟩

theorem buildYour_ok_inv {cfg : ConvConfig} {ym : YourModel}
    (hm : buildYourCodeNet cfg = .ok ym) :
    ∃ ls h w nf, yourFE cfg = .ok (ls, h, w, nf) ∧
      ym = { feature_extractor := ⟨ls⟩
             classifier := ⟨classifierLoop cfg.activation_type cfg.act_negative_slope
               cfg.out_classes cfg.hidden_dims nf⟩
             features_num := nf
             dropout := .dropout (1 / 10) } := by
  unfold buildYourCodeNet at hm
  split at hm
  · simp at hm
  · split at hm
    · simp at hm
    · split at hm
      · simp at hm
      next ls h w nf hfe =>
        simp only [Except.ok.injEq] at hm
        exact ⟨ls, h, w, nf, hfe, hm.symm⟩

/-- C7: each of the four classes assembles an ordered list of layer
objects and wraps it, in append order, in a sequential container:
`ConvClassifier`'s `feature_extractor` and `classifier`,
`ResidualBlock`'s `main_path` and `shortcut_path`, and the feature
extractors of `ResNetClassifier` and `YourCodeNet` are exactly the
`nn.Sequential` of the lists their construction loops appended. -/
theorem C7_sequential_wrapping :
    (∀ (cfg : ConvConfig) (m : ConvModel), buildConvClassifier cfg = .ok m →
      ∃ ls h w nf, makeFeatureExtractor cfg = .ok (ls, h, w, nf) ∧
        m.feature_extractor = PySeq.mk ls ∧
        m.classifier = PySeq.mk (classifierLoop cfg.activation_type cfg.act_negative_slope
          cfg.out_classes cfg.hidden_dims nf)) ∧
    (∀ (inC : ℕ) (channels ks : List ℕ) (bn : Bool) (dp : ℚ) (a : String) (sl : Option ℚ)
        (blk : ResBlockModel), buildResidualBlock inC channels ks bn dp a sl = .ok blk →
      blk.main_path = PySeq.mk (resMainLoop bn dp a sl (channels.zip ks) inC) ∧
      blk.shortcut_path = PySeq.mk (if channels.getLastD 0 ≠ inC then
        [.conv2d inC (channels.getLastD 0) 1 1 0 1 false] else [])) ∧
    (∀ (rcfg : ResNetConfig) (rm : ResNetModel), buildResNetClassifier rcfg = .ok rm →
      ∃ ls h w nf, resnetFE rcfg = .ok (ls, h, w, nf) ∧
        rm.feature_extractor = PySeq.mk ls) ∧
    (∀ (cfg : ConvConfig) (ym : YourModel), buildYourCodeNet cfg = .ok ym →
      ∃ ls h w nf, yourFE cfg = .ok (ls, h, w, nf) ∧
        ym.feature_extractor = PySeq.mk ls) := by
  refine ⟨?_, ?_, ?_, ?_⟩
  · intro cfg m hm
    obtain ⟨ls, h, w, nf, hfe, hmodel, -, -, -, -⟩ := buildConv_ok_inv hm
    exact ⟨ls, h, w, nf, hfe, by rw [hmodel], by rw [hmodel]⟩
  · intro inC channels ks bn dp a sl blk hok
    obtain ⟨-, -, -, -, -, hblk⟩ := buildResidualBlock_ok_inv hok
    exact ⟨by rw [hblk], by rw [hblk]⟩
  · intro rcfg rm hm
    obtain ⟨ls, h, w, nf, hfe, hmodel⟩ := buildResNet_ok_inv hm
    exact ⟨ls, h, w, nf, hfe, by rw [hmodel]⟩
  · intro cfg ym hm
    obtain ⟨ls, h, w, nf, hfe, hmodel⟩ := buildYour_ok_inv hm
    exact ⟨ls, h, w, nf, hfe, by rw [hmodel]⟩

/-- Closed witness for C7, instantiating the `ConvClassifier` clause at
`cfgMini`. -/
theorem C7_sequential_wrapping_witness :
    ∃ ls h w nf, makeFeatureExtractor cfgMini = .ok (ls, h, w, nf) ∧
      mMini.feature_extractor = PySeq.mk ls ∧
      mMini.classifier = PySeq.mk (classifierLoop cfgMini.activation_type
        cfgMini.act_negative_slope cfgMini.out_classes cfgMini.hidden_dims nf) :=
  C7_sequential_wrapping.1 cfgMini mMini rfl

theorem pySizeUpd_odd (s : ℤ) {k : ℕ} (hk : k % 2 = 1) :
    pySizeUpd s k 1 (k / 2) 1 = s := by
  unfold pySizeUpd
  rw [show ((1 : ℕ) : ℤ) = 1 from rfl, Int.tdiv_one]
  omega

theorem pySizeUpd_one (s : ℤ) : pySizeUpd s 1 1 0 1 = s := by
  unfold pySizeUpd
  rw [show ((1 : ℕ) : ℤ) = 1 from rfl, Int.tdiv_one]
  omega

theorem pathOutChannels_append (l1 l2 : List BasicLayer) :
    ∀ c, pathOutChannels c (l1 ++ l2) = pathOutChannels (pathOutChannels c l1) l2 := by
  induction l1 with
  | nil => intro c; rfl
  | cons x rest ih =>
    intro c
    simp only [List.cons_append, pathOutChannels]
    exact ih _

theorem pathSizeMap_append (l1 l2 : List BasicLayer) :
    ∀ s, pathSizeMap (l1 ++ l2) s = pathSizeMap l2 (pathSizeMap l1 s) := by
  induction l1 with
  | nil => intro s; rfl
  | cons x rest ih =>
    intro s
    simp only [List.cons_append, pathSizeMap]
    exact ih _

theorem classAct_pathOutChannels (a : String) (sl : Option ℚ) (c : ℕ) :
    pathOutChannels c (classAct a sl) = c := by
  unfold classAct
  split
  · rfl
  · split
    · split <;> rfl
    · rfl

theorem classAct_pathSizeMap (a : String) (sl : Option ℚ) (s : ℤ) :
    pathSizeMap (classAct a sl) s = s := by
  unfold classAct
  split
  · rfl
  · split
    · split <;> rfl
    · rfl

theorem resMain_channels (bn : Bool) (dp : ℚ) (a : String) (sl : Option ℚ) :
    ∀ (pairs : List (ℕ × ℕ)) (cin : ℕ), pairs ≠ [] →
      pathOutChannels cin (resMainLoop bn dp a sl pairs cin) =
        (pairs.map Prod.fst).getLastD 0 := by
  intro pairs
  induction pairs with
  | nil => intro cin hne; exact absurd rfl hne
  | cons p rest ih =>
    intro cin _
    cases rest with
    | nil =>
      obtain ⟨ch, k⟩ := p
      simp [resMainLoop, pathOutChannels, layerOutChannels]
    | cons q rest2 =>
      obtain ⟨ch, k⟩ := p
      rw [show resMainLoop bn dp a sl ((ch, k) :: q :: rest2) cin =
        .conv2d cin ch k 1 (k / 2) 1 true :: .dropout2d dp ::
          ((if bn then [.batchNorm2d ch] else []) ++ classAct a sl ++
            resMainLoop bn dp a sl (q :: rest2) ch) from rfl]
      simp only [pathOutChannels, layerOutChannels]
      rw [pathOutChannels_append, pathOutChannels_append]
      have hbn : pathOutChannels ch (if bn then [.batchNorm2d ch] else []) = ch := by
        cases bn <;> rfl
      rw [hbn, classAct_pathOutChannels, ih ch (by simp)]
      simp [List.getLastD_cons]

theorem resMain_size (bn : Bool) (dp : ℚ) (a : String) (sl : Option ℚ) :
    ∀ (pairs : List (ℕ × ℕ)), (∀ pr ∈ pairs, pr.2 % 2 = 1) →
      ∀ (cin : ℕ) (s : ℤ), pathSizeMap (resMainLoop bn dp a sl pairs cin) s = s := by
  intro pairs
  induction pairs with
  | nil => intro _ cin s; rfl
  | cons p rest ih =>
    intro hodd cin s
    cases rest with
    | nil =>
      obtain ⟨ch, k⟩ := p
      have hk : k % 2 = 1 := hodd (ch, k) (by simp)
      simp [resMainLoop, pathSizeMap, layerSizeMap, pySizeUpd_odd s hk]
    | cons q rest2 =>
      obtain ⟨ch, k⟩ := p
      have hk : k % 2 = 1 := hodd (ch, k) (by simp)
      rw [show resMainLoop bn dp a sl ((ch, k) :: q :: rest2) cin =
        .conv2d cin ch k 1 (k / 2) 1 true :: .dropout2d dp ::
          ((if bn then [.batchNorm2d ch] else []) ++ classAct a sl ++
            resMainLoop bn dp a sl (q :: rest2) ch) from rfl]
      simp only [pathSizeMap, layerSizeMap]
      rw [pySizeUpd_odd s hk, pathSizeMap_append, pathSizeMap_append]
      have hbn : ∀ t : ℤ, pathSizeMap (if bn then [BasicLayer.batchNorm2d ch] else []) t = t := by
        intro t
        cases bn <;> rfl
      rw [hbn, classAct_pathSizeMap]
      exact ih (fun pr hpr => hodd pr (List.mem_cons_of_mem _ hpr)) ch s

/-- C8: for every successfully constructed `ResidualBlock` (odd kernels,
stride 1, padding `kernel_size // 2` in every main-path convolution), the
shortcut path is exactly one 1x1 convolution without bias when
`channels[-1]` differs from `in_channels` and the empty sequential
container otherwise; both paths produce `channels[-1]` output channels,
and both preserve the input's spatial extent. -/
theorem C8_residual_block_paths (inC : ℕ) (channels ks : List ℕ) (bn : Bool) (dp : ℚ)
    (a : String) (sl : Option ℚ) (blk : ResBlockModel)
    (hok : buildResidualBlock inC channels ks bn dp a sl = .ok blk) :
    blk.shortcut_path.layers = (if channels.getLastD 0 ≠ inC then
      [.conv2d inC (channels.getLastD 0) 1 1 0 1 false] else []) ∧
    pathOutChannels inC blk.main_path.layers = channels.getLastD 0 ∧
    pathOutChannels inC blk.shortcut_path.layers = channels.getLastD 0 ∧
    pathSizeMap blk.main_path.layers = (fun s => s) ∧
    pathSizeMap blk.shortcut_path.layers = (fun s => s) := by
  obtain ⟨hne, hksne, hlen, hodd, hval, hblk⟩ := buildResidualBlock_ok_inv hok
  subst hblk
  have hpairs : channels.zip ks ≠ [] := by
    cases channels with
    | nil => exact absurd rfl hne
    | cons c cr =>
      cases ks with
      | nil => exact absurd rfl hksne
      | cons x xr => simp [List.zip]
  refine ⟨rfl, ?_, ?_, ?_, ?_⟩
  · dsimp only
    rw [resMain_channels bn dp a sl (channels.zip ks) inC hpairs,
      List.map_fst_zip channels ks (le_of_eq hlen)]
  · dsimp only
    by_cases hd : channels.getLastD 0 ≠ inC
    · rw [if_pos hd]
      rfl
    · rw [if_neg hd]
      push_neg at hd
      show inC = channels.getLastD 0
      exact hd.symm
  · dsimp only
    funext s
    exact resMain_size bn dp a sl (channels.zip ks)
      (fun pr hpr => hodd pr.2 (List.of_mem_zip hpr).2) inC s
  · dsimp only
    funext s
    by_cases hd : channels.getLastD 0 ≠ inC
    · rw [if_pos hd]
      simp [pathSizeMap, layerSizeMap, pySizeUpd_one]
    · rw [if_neg hd]
      rfl

/-- Closed witness for C8 at a concrete residual block. -/
theorem C8_residual_block_paths_witness :
    blkMini.shortcut_path.layers = (if ([4] : List ℕ).getLastD 0 ≠ 3 then
      [BasicLayer.conv2d 3 (([4] : List ℕ).getLastD 0) 1 1 0 1 false] else []) ∧
    pathOutChannels 3 blkMini.main_path.layers = ([4] : List ℕ).getLastD 0 ∧
    pathOutChannels 3 blkMini.shortcut_path.layers = ([4] : List ℕ).getLastD 0 ∧
    pathSizeMap blkMini.main_path.layers = (fun s => s) ∧
    pathSizeMap blkMini.shortcut_path.layers = (fun s => s) :=
  C8_residual_block_paths 3 [4] [3] false 0 reluStr none blkMini rfl

/-- C9: `ResidualBottleneckBlock.__init__` builds the parent
`ResidualBlock` with channels `[inner_channels[0]] + inner_channels +
[in_out_channels]` and kernel sizes `[1] + inner_kernel_sizes + [1]`;
consequently the block's output channel count always equals its input
channel count `in_out_channels`, and its shortcut path is always the
empty (identity) sequential container. -/
theorem C9_bottleneck_identity (io : ℕ) (inner ks : List ℕ) (kw : BottleneckKwargs)
    (blk : ResBlockModel)
    (hok : buildBottleneck io inner ks kw = .ok blk) :
    (∀ c0 rest, inner = c0 :: rest →
      buildResidualBlock io (c0 :: (inner ++ [io])) (1 :: (ks ++ [1]))
        (kw.batchnorm.getD false) (kw.dropout.getD 0)
        (kw.activation_type.getD reluStr) (kw.activation_params.getD none) = .ok blk) ∧
    blk.shortcut_path.layers = [] ∧
    pathOutChannels io blk.main_path.layers = io := by
  cases inner with
  | nil => simp [buildBottleneck] at hok
  | cons c0 rest =>
    rw [show buildBottleneck io (c0 :: rest) ks kw = buildResidualBlock io
      (c0 :: ((c0 :: rest) ++ [io])) (1 :: (ks ++ [1])) (kw.batchnorm.getD false)
      (kw.dropout.getD 0) (kw.activation_type.getD reluStr) (kw.activation_params.getD none)
      from rfl] at hok
    obtain ⟨hne, hksne, hlen, hodd, hval, hblk⟩ := buildResidualBlock_ok_inv hok
    have hlast : (c0 :: ((c0 :: rest) ++ [io])).getLastD 0 = io := by
      rw [show c0 :: ((c0 :: rest) ++ [io]) = (c0 :: c0 :: rest) ++ [io] from rfl]
      exact List.getLastD_concat 0 io (c0 :: c0 :: rest)
    have hpairs : (c0 :: ((c0 :: rest) ++ [io])).zip (1 :: (ks ++ [1])) ≠ [] := by
      simp [List.zip]
    refine ⟨?_, ?_, ?_⟩
    · intro c0' rest' hinner
      cases hinner
      exact hok
    · rw [hblk]
      dsimp only
      rw [if_neg (by rw [hlast]; exact fun hcon => hcon rfl)]
    · rw [hblk]
      dsimp only
      rw [resMain_channels _ _ _ _ _ io hpairs,
        List.map_fst_zip _ _ (le_of_eq hlen), hlast]

/-- Closed witness for C9 at a concrete bottleneck block. -/
theorem C9_bottleneck_identity_witness :
    (∀ c0 rest, ([2] : List ℕ) = c0 :: rest →
      buildResidualBlock 4 (c0 :: ([2] ++ [4])) (1 :: ([3] ++ [1]))
        false 0 reluStr none = .ok bneckMini) ∧
    bneckMini.shortcut_path.layers = [] ∧
    pathOutChannels 4 bneckMini.main_path.layers = 4 :=
  C9_bottleneck_identity 4 [2] [3] ⟨none, none, none, none⟩ bneckMini rfl

/-- C10: although `conv_params` and `pooling_params` default to empty
dictionaries, `ConvClassifier` construction unconditionally reads the
`kernel_size` key from both: for every otherwise-valid configuration in
which either dictionary lacks the key, `__init__` raises `KeyError`
before any layer is built (the error of `makeFeatureExtractor` carries
the empty list of layers appended so far), while `stride`, `padding` and
`dilation` are genuinely optional — writing their defaults explicitly
(`stride=1, padding=0, dilation=1` for convolutions; `stride=kernel_size,
padding=0, dilation=1` for pooling) yields the identical construction. -/
theorem C10_kernel_size_mandatory :
    (∀ cfg : ConvConfig, cfg.channels ≠ [] → cfg.hidden_dims ≠ [] →
      (cfg.activation_type = "relu" ∨ cfg.activation_type = "lrelu") →
      (cfg.pooling_type = "max" ∨ cfg.pooling_type = "avg") →
      (cfg.conv_params.kernel_size = none ∨ cfg.pooling_params.kernel_size = none) →
      buildConvClassifier cfg = .error .keyErrorKernelSize ∧
      makeFeatureExtractor cfg = .error (.keyErrorKernelSize, [])) ∧
    (∀ (cfg : ConvConfig) (ck pk : ℕ),
      cfg.conv_params = { kernel_size := some ck
                          stride := none
                          padding := none
                          dilation := none } →
      cfg.pooling_params = { kernel_size := some pk
                             stride := none
                             padding := none
                             dilation := none } →
      buildConvClassifier cfg = buildConvClassifier
        { cfg with
          conv_params := { kernel_size := some ck
                           stride := some 1
                           padding := some 0
                           dilation := some 1 }
          pooling_params := { kernel_size := some pk
                              stride := some pk
                              padding := some 0
                              dilation := some 1 } }) := by
  constructor
  · intro cfg hch hhd hact hpool hmiss
    have hres : resolveFEParams cfg = .error .keyErrorKernelSize := by
      unfold resolveFEParams
      rcases hmiss with hm | hm
      · rw [hm]
      · cases hck : cfg.conv_params.kernel_size with
        | none => rfl
        | some ck => rw [hm]
    have hfe : makeFeatureExtractor cfg = .error (.keyErrorKernelSize, []) := by
      unfold makeFeatureExtractor
      rw [hres]
    refine ⟨?_, hfe⟩
    unfold buildConvClassifier
    rw [if_neg (by simp [hch, hhd]), if_neg (by simp [hact, hpool]), hfe]
  · intro cfg ck pk hcp hpp
    simp [buildConvClassifier, makeFeatureExtractor, resolveFEParams, hcp, hpp]

/-- Closed witness for C10: the `KeyError` clause at `cfgNoKernel` and
the defaults clause at `cfgMini`. -/
theorem C10_kernel_size_mandatory_witness :
    (buildConvClassifier cfgNoKernel = .error .keyErrorKernelSize ∧
      makeFeatureExtractor cfgNoKernel = .error (.keyErrorKernelSize, [])) ∧
    buildConvClassifier cfgMini = buildConvClassifier
      { cfgMini with
        conv_params := { kernel_size := some 3
                         stride := some 1
                         padding := some 0
                         dilation := some 1 }
        pooling_params := { kernel_size := some 2
                            stride := some 2
                            padding := some 0
                            dilation := some 1 } } :=
  ⟨C10_kernel_size_mandatory.1 cfgNoKernel (by decide) (by decide)
      (Or.inl rfl) (Or.inl rfl) (Or.inl rfl),
    C10_kernel_size_mandatory.2 cfgMini 3 2 rfl rfl⟩

/-- Closed witness for the amended C4 at `cfgMini`. -/
theorem C4_construction_domain_amended_witness :
    (∃ m, buildConvClassifier cfgMini = .ok m) ↔ goodConvCfg cfgMini :=
  C4_construction_domain_amended cfgMini
